import Mathlib

/-!
Shallow embedding of `spotify_player_v2.py` (kschuerholt/sheet_to_spotify).

Strings are modelled as `List Char`; `str` injects Lean string literals.
Python dicts are modelled as insertion-ordered association lists with
in-place update on existing keys (`dinsert`), matching CPython dict
semantics.  Fallible functions return `Except String`.
-/

namespace SheetToSpotify

/-- Convert a Lean string literal to the `List Char` representation used
throughout the development. -/
def str (s : String) : List Char := s.data

/-- Python `str.isspace` on the ASCII whitespace characters relevant here. -/
def isSpace (c : Char) : Bool :=
  c = ' ' || c = '\t' || c = '\n' || c = '\r' || c = '\x0b' || c = '\x0c'

/-- Python `str.strip()`: drop leading and trailing whitespace. -/
def strip (s : List Char) : List Char :=
  ((s.dropWhile isSpace).reverse.dropWhile isSpace).reverse

/-- Python `s.split("?")[0]`: the prefix of `s` before the first `?`
(`s` itself when no `?` occurs). -/
def cutQuery (s : List Char) : List Char :=
  s.takeWhile (fun c => !(c = '?'))

/-- `startsW pat s` holds when `pat` is an initial segment of `s`. -/
def startsW : List Char → List Char → Bool
  | [], _ => true
  | _ :: _, [] => false
  | p :: ps, c :: cs => p = c && startsW ps cs

/-- Python `pat in s`: substring containment. -/
def hasSub (pat : List Char) : List Char → Bool
  | [] => startsW pat []
  | c :: cs => startsW pat (c :: cs) || hasSub pat cs

/-- The characters following the first occurrence of `pat` in `s`
(`none` when `pat` does not occur).  This is Python
`s.split(pat)[1]` truncated as described at `normalize_uri`. -/
def afterFirst (pat : List Char) : List Char → Option (List Char)
  | [] => if startsW pat [] then some [] else none
  | c :: cs =>
      if startsW pat (c :: cs) then some ((c :: cs).drop pat.length)
      else afterFirst pat cs

/-- Embedding of `normalize_uri` (spotify_player_v2.py, lines 16-25):
strip whitespace, truncate at the first `?`; if the result contains
`open.spotify.com`, extract the segment after the first `/track/` up to
the next `/` and return `spotify:track:<id>`, failing with `ValueError`
when `/track/` is absent; otherwise return the processed string.

Python's `uri.split("/track/")[1].split("/")[0]` equals
`afterFirst` followed by `takeWhile (· ≠ '/')`: the `[1]` segment of the
split ends at the second occurrence of `/track/`, which begins with `/`,
so truncating at the first `/` is unaffected by that boundary. -/
def normalize_uri (raw : List Char) : Except String (List Char) :=
  let uri := cutQuery (strip raw)
  if hasSub (str "open.spotify.com") uri then
    match afterFirst (str "/track/") uri with
    | none => .error "Malformed track URL"
    | some rest =>
        .ok (str "spotify:track:" ++ rest.takeWhile (fun c => !(c = '/')))
  else
    .ok uri

/-- CPython dict insertion `d[k] = v`: update the value in place when the
key is present, otherwise append the pair (insertion order preserved). -/
def dinsert : List (List Char × List Char) → List Char → List Char →
    List (List Char × List Char)
  | [], k, v => [(k, v)]
  | (k', v') :: rest, k, v =>
      if k' = k then (k', v) :: rest else (k', v') :: dinsert rest k v

/-- Per-row processing of `parse_sheet_rows` (lines 47-59): skip rows that
are too short, read and trim the contributor (blank becomes `Anonymous`),
skip blank links and links that fail normalization; otherwise yield the
normalized URI and the contributor. -/
def parse_row (name_idx link_idx : Nat) (row : List (List Char)) :
    Option (List Char × List Char) :=
  if row.length ≤ max name_idx link_idx then none
  else
    let contributor :=
      let c := strip (row.getD name_idx [])
      if c = [] then str "Anonymous" else c
    let link := strip (row.getD link_idx [])
    if link = [] then none
    else
      match normalize_uri link with
      | .error _ => none
      | .ok uri => some (uri, contributor)

/-- Fold step of `parse_sheet_rows`: `mapping[uri] = contributor;
ordered.append(uri)` for rows that `parse_row` accepts. -/
def parse_step (name_idx link_idx : Nat)
    (acc : List (List Char × List Char) × List (List Char))
    (row : List (List Char)) :
    List (List Char × List Char) × List (List Char) :=
  match parse_row name_idx link_idx row with
  | none => acc
  | some (uri, contributor) =>
      (dinsert acc.1 uri contributor, acc.2 ++ [uri])

/-- Embedding of `parse_sheet_rows` (lines 28-60): empty input yields the
empty mapping; otherwise the first row is the header, each cell trimmed,
and the column positions of `name_col` and `link_col` are looked up by
`list.index`, raising `KeyError` when either is absent; the remaining rows
are folded with `parse_step`. -/
def parse_sheet_rows (rows : List (List (List Char)))
    (name_col link_col : List Char) :
    Except String (List (List Char × List Char) × List (List Char)) :=
  match rows with
  | [] => .ok ([], [])
  | header :: body =>
      let h := header.map strip
      match h.findIdx? (fun x => x = name_col),
            h.findIdx? (fun x => x = link_col) with
      | some name_idx, some link_idx =>
          .ok (body.foldl (parse_step name_idx link_idx) ([], []))
      | _, _ => .error "Missing expected column"

/-- Index of the last occurrence of an element satisfying `p`
(`csv.DictReader` keeps the last duplicate field name's value). -/
def lastFindIdx? (p : α → Bool) : List α → Option Nat
  | [] => none
  | x :: xs =>
      match lastFindIdx? p xs with
      | some i => some (i + 1)
      | none => if p x then some 0 else none

/-- `csv.DictReader` field access `row.get(col) or ""`: the cell of `row`
under the last occurrence of `col` among the field names; the empty
string when `col` is not a field name or the row is too short for the
occurrence (the reader's `restval` is `None`, and the code coalesces
`None` to `""`). -/
def dictGetStr (fns row : List (List Char)) (col : List Char) : List Char :=
  match lastFindIdx? (fun x => x = col) fns with
  | none => []
  | some i => (row.get? i).getD []

/-- Per-row fold step of `load_csv_mapping` (lines 113-123).  `DictReader`
skips blank rows (`[]`); otherwise the contributor and link cells are read
through `dictGetStr` and processed exactly as in `parse_sheet_rows`. -/
def csv_step (fns : List (List Char)) (name_col link_col : List Char)
    (acc : List (List Char × List Char) × List (List Char))
    (row : List (List Char)) :
    List (List Char × List Char) × List (List Char) :=
  if row = [] then acc
  else
    let contributor :=
      let c := strip (dictGetStr fns row name_col)
      if c = [] then str "Anonymous" else c
    let link := strip (dictGetStr fns row link_col)
    if link = [] then acc
    else
      match normalize_uri link with
      | .error _ => acc
      | .ok uri => (dinsert acc.1 uri contributor, acc.2 ++ [uri])

/-- Embedding of `load_csv_mapping` (lines 100-124).  The file layer is
modelled as the list of rows the `csv` reader yields: the first row is the
`DictReader`'s field-name row (taken verbatim, not trimmed), the remaining
rows are the data rows.  An empty file has no field names and yields no
rows. -/
def load_csv_mapping (rows : List (List (List Char)))
    (name_col link_col : List Char) :
    List (List Char × List Char) × List (List Char) :=
  match rows with
  | [] => ([], [])
  | fns :: body => body.foldl (csv_step fns name_col link_col) ([], [])

/-- The missing URIs, in original order (line 185):
`[uri for uri in track_uris if uri not in existing]`. -/
def to_add (existing track_uris : List (List Char)) : List (List Char) :=
  track_uris.filter (fun uri => !(existing.contains uri))

/-- Consecutive slices of size `k + 1` of a list, in order
(Python `for i in range(0, len(l), chunk): l[i : i + chunk]` with
`chunk = k + 1`). -/
def chunksAux (k : Nat) : List α → List (List α)
  | [] => []
  | x :: xs => (x :: xs.take k) :: chunksAux k (xs.drop k)
  termination_by l => l.length
  decreasing_by simp [List.length_drop]; omega

/-- Consecutive slices of size `n` (for `n ≥ 1`). -/
def chunks (n : Nat) (l : List α) : List (List α) := chunksAux (n - 1) l

/-- Observable outcome of one `sync_playlist_once` run: the argument lists
of the `playlist_add_items` calls in call order, whether the
"already up-to-date" message was printed, and the playlist contents after
the run (each call appends its batch to the playlist). -/
structure SyncResult where
  batches : List (List (List Char))
  upToDate : Bool
  finalPlaylist : List (List Char)
  deriving DecidableEq, Repr

/-- Embedding of `sync_playlist_once` (lines 166-193) after the paginated
fetch: `existing` is the list of URIs collected from the remote playlist,
`track_uris` the desired list.  When nothing is missing the function
prints the up-to-date message and returns; otherwise the missing URIs are
appended in batches of 100. -/
def sync_playlist_once (existing track_uris : List (List Char)) :
    SyncResult :=
  let ta := to_add existing track_uris
  if ta = [] then
    { batches := [], upToDate := true, finalPlaylist := existing }
  else
    { batches := chunks 100 ta
      upToDate := false
      finalPlaylist := (chunks 100 ta).foldl (fun p b => p ++ b) existing }

/-- An album-art image as returned by the playback API. -/
structure Image where
  url : List Char
  deriving DecidableEq, Repr

/-- The `album` object of a playing item; `images` may be absent. -/
structure Album where
  images : Option (List Image)
  deriving DecidableEq, Repr

/-- The `item` object of a playback response. -/
structure Item where
  uri : List Char
  name : List Char
  artists : List (List Char)
  album : Option Album
  deriving DecidableEq, Repr

/-- A playback-status response; `item` may be absent (or empty, which is
falsy in Python and behaves the same). -/
structure Playback where
  is_playing : Bool
  item : Option Item
  deriving DecidableEq, Repr

/-- What the page handler renders: either the placeholder state or the
populated template. -/
inductive Render where
  | placeholder
  | playing (track_name artists contributor : List Char)
      (cover_url contrib_img : Option (List Char))
  deriving DecidableEq, Repr

/-- Python `d.get(k, default)` on an association list. -/
def lookupD (m : List (List Char × List Char)) (k d : List Char) :
    List Char :=
  match m with
  | [] => d
  | (k', v) :: rest => if k' = k then v else lookupD rest k d

/-- Python `d.get(k)` on an association list. -/
def lookup? (m : List (List Char × List Char)) (k : List Char) :
    Option (List Char) :=
  match m with
  | [] => none
  | (k', v) :: rest => if k' = k then some v else lookup? rest k

/-- Python `", ".flatten(parts)`. -/
def joinComma : List (List Char) → List Char
  | [] => []
  | [p] => p
  | p :: q :: rest => p ++ str ", " ++ joinComma (q :: rest)

/-- The album image list of an item:
`item.get("album", {}).get("images") or []` (line 243) — the empty list
when the album or its image list is absent. -/
def albumImages (item : Item) : List Image :=
  match item.album with
  | none => []
  | some a => a.images.getD []

/-- Embedding of the `show_now_playing` handler (lines 236-260): when the
response is present, reports playing and carries an item, render the
track name, the comma-joined artist names, the contributor
(`mapping.get(uri, "someone")`), the first album image's URL
(`item.get("album", {}).get("images") or []`, then `images[0]["url"]`
when non-empty), and the avatar `contrib_imgs.get(contributor)`;
otherwise render the placeholder. -/
def show_now_playing (current : Option Playback)
    (mapping contrib_imgs : List (List Char × List Char)) : Render :=
  match current with
  | none => .placeholder
  | some c =>
      if c.is_playing then
        match c.item with
        | none => .placeholder
        | some item =>
            let contributor := lookupD mapping item.uri (str "someone")
            let images := albumImages item
            let cover :=
              match images with
              | [] => none
              | im :: _ => some im.url
            .playing item.name (joinComma item.artists) contributor cover
              (lookup? contrib_imgs contributor)
      else .placeholder

/-! ### Helper lemmas -/

theorem foldl_append_eq_join (bs : List (List α)) (acc : List α) :
    bs.foldl (fun p b => p ++ b) acc = acc ++ bs.flatten := by
  induction bs generalizing acc with
  | nil => simp
  | cons b bs ih => simp [ih, List.append_assoc]

theorem chunksAux_join_fuel (k : Nat) :
    ∀ (n : Nat) (l : List α), l.length ≤ n → (chunksAux k l).flatten = l := by
  intro n
  induction n with
  | zero =>
      intro l h
      have : l = [] := List.eq_nil_of_length_eq_zero (Nat.le_zero.mp h)
      subst this
      simp [chunksAux]
  | succ n ih =>
      intro l h
      cases l with
      | nil => simp [chunksAux]
      | cons x xs =>
          have hlen : (xs.drop k).length ≤ n := by
            simp only [List.length_drop]
            simp only [List.length_cons] at h
            omega
          rw [chunksAux]
          simp only [List.flatten_cons, List.cons_append]
          rw [ih _ hlen]
          simp [List.take_append_drop]

theorem chunksAux_join (k : Nat) (l : List α) :
    (chunksAux k l).flatten = l :=
  chunksAux_join_fuel k l.length l (Nat.le_refl _)

theorem chunksAux_mem_fuel (k : Nat) :
    ∀ (n : Nat) (l : List α), l.length ≤ n →
      ∀ c ∈ chunksAux k l, c ≠ [] ∧ c.length ≤ k + 1 := by
  intro n
  induction n with
  | zero =>
      intro l h
      have : l = [] := List.eq_nil_of_length_eq_zero (Nat.le_zero.mp h)
      subst this
      simp [chunksAux]
  | succ n ih =>
      intro l h c hc
      cases l with
      | nil => simp [chunksAux] at hc
      | cons x xs =>
          rw [chunksAux] at hc
          rcases List.mem_cons.mp hc with hc | hc
          · subst hc
            refine ⟨by simp, ?_⟩
            simp only [List.length_cons, List.length_take]
            omega
          · have hlen : (xs.drop k).length ≤ n := by
              simp only [List.length_drop]
              simp only [List.length_cons] at h
              omega
            exact ih _ hlen c hc

theorem chunksAux_mem (k : Nat) (l : List α) :
    ∀ c ∈ chunksAux k l, c ≠ [] ∧ c.length ≤ k + 1 :=
  chunksAux_mem_fuel k l.length l (Nat.le_refl _)

theorem chunksAux_ne_nil (k : Nat) (l : List α) (h : l ≠ []) :
    chunksAux k l ≠ [] := by
  cases l with
  | nil => exact absurd rfl h
  | cons x xs => rw [chunksAux]; simp

theorem afterFirst_isSome (pat s : List Char) :
    (afterFirst pat s).isSome = hasSub pat s := by
  induction s with
  | nil =>
      simp only [afterFirst, hasSub]
      cases startsW pat [] <;> simp
  | cons c cs ih =>
      simp only [afterFirst, hasSub]
      cases h : startsW pat (c :: cs) <;> simp [h, ih]

theorem lookupD_eq_lookup? (m : List (List Char × List Char))
    (k d : List Char) : lookupD m k d = (lookup? m k).getD d := by
  induction m with
  | nil => rfl
  | cons p rest ih =>
      simp only [lookupD, lookup?]
      split <;> simp [ih]

theorem lastFindIdx?_eq_none_of_not_mem [DecidableEq α] {c : α}
    {l : List α} (h : c ∉ l) : lastFindIdx? (fun x => x = c) l = none := by
  induction l with
  | nil => rfl
  | cons x xs ih =>
      have hx : ¬(x = c) := fun hxc => h (hxc ▸ List.mem_cons_self x xs)
      have hxs : c ∉ xs := fun hm => h (List.mem_cons_of_mem x hm)
      simp only [lastFindIdx?, ih hxs]
      simp [hx]

theorem lastFindIdx?_mem [DecidableEq α] {c : α} {l : List α} {i : Nat}
    (h : lastFindIdx? (fun x => x = c) l = some i) : c ∈ l := by
  induction l generalizing i with
  | nil => simp [lastFindIdx?] at h
  | cons x xs ih =>
      simp only [lastFindIdx?] at h
      cases hxs : lastFindIdx? (fun x => x = c) xs with
      | some j =>
          exact List.mem_cons_of_mem x (ih hxs)
      | none =>
          rw [hxs] at h
          by_cases hx : x = c
          · exact hx ▸ List.mem_cons_self x xs
          · simp [hx] at h

theorem lastFindIdx?_eq_findIdx? [DecidableEq α] {c : α} {l : List α}
    (h : l.Nodup) :
    lastFindIdx? (fun x => x = c) l = l.findIdx? (fun x => x = c) := by
  induction l with
  | nil => rfl
  | cons x xs ih =>
      have hnd := List.nodup_cons.mp h
      simp only [lastFindIdx?, List.findIdx?_cons, Nat.zero_add,
        List.findIdx?_succ]
      by_cases hx : x = c
      · subst hx
        rw [lastFindIdx?_eq_none_of_not_mem hnd.1]
        simp
      · rw [ih hnd.2]
        cases hfi : xs.findIdx? (fun x => x = c) with
        | some j => simp [hx]
        | none => simp [hx]

theorem sync_batches_flatten (e d : List (List Char)) :
    (sync_playlist_once e d).batches.flatten = to_add e d := by
  by_cases h : to_add e d = [] <;>
    simp [sync_playlist_once, h, chunks, chunksAux_join]

theorem sync_finalPlaylist (e d : List (List Char)) :
    (sync_playlist_once e d).finalPlaylist = e ++ to_add e d := by
  by_cases h : to_add e d = [] <;>
    simp [sync_playlist_once, h, chunks, foldl_append_eq_join, chunksAux_join]

theorem sync_batches_eq_nil_iff (e d : List (List Char)) :
    (sync_playlist_once e d).batches = [] ↔ to_add e d = [] := by
  by_cases h : to_add e d = []
  · simp [sync_playlist_once, h]
  · have hb : (sync_playlist_once e d).batches = chunks 100 (to_add e d) := by
      simp [sync_playlist_once, h]
    rw [hb, chunks]
    simp only [h, iff_false]
    exact chunksAux_ne_nil _ _ h

theorem sync_upToDate_iff (e d : List (List Char)) :
    (sync_playlist_once e d).upToDate = true ↔ to_add e d = [] := by
  by_cases h : to_add e d = [] <;> simp [sync_playlist_once, h]

/-! ### Claim theorems -/

/-- C3: `normalize_uri` fails exactly when the whitespace-stripped,
`?`-truncated input contains the web-URL domain pattern
`open.spotify.com` but no `/track/` marker from which an identifier
segment could be extracted; and when the domain pattern and the marker
are both present it returns `spotify:track:<id>` where `<id>` is the
segment following the first `/track/` up to the next `/`. -/
theorem claim_C3 (raw : List Char) :
    ((normalize_uri raw).isOk = false ↔
      (hasSub (str "open.spotify.com") (cutQuery (strip raw)) = true ∧
       hasSub (str "/track/") (cutQuery (strip raw)) = false)) ∧
    (∀ rest,
      hasSub (str "open.spotify.com") (cutQuery (strip raw)) = true →
      afterFirst (str "/track/") (cutQuery (strip raw)) = some rest →
      normalize_uri raw =
        .ok (str "spotify:track:" ++ rest.takeWhile (fun c => !(c = '/')))) := by
  by_cases hd : hasSub (str "open.spotify.com") (cutQuery (strip raw)) = true
  · cases ha : afterFirst (str "/track/") (cutQuery (strip raw)) with
    | none =>
        have hs : hasSub (str "/track/") (cutQuery (strip raw)) = false := by
          rw [← afterFirst_isSome, ha]; rfl
        constructor
        · simp [normalize_uri, hd, ha, Except.toBool, hs]
        · intro rest _ hr
          exact absurd hr (by simp)
    | some r =>
        have hs : hasSub (str "/track/") (cutQuery (strip raw)) = true := by
          rw [← afterFirst_isSome, ha]; rfl
        constructor
        · simp [normalize_uri, hd, ha, Except.toBool, hs]
        · intro rest _ hr
          have : r = rest := by injection hr
          subst this
          simp [normalize_uri, hd, ha]
  · have hd' : hasSub (str "open.spotify.com") (cutQuery (strip raw)) = false :=
      Bool.eq_false_iff.mpr (fun hc => hd hc)
    constructor
    · simp [normalize_uri, hd', Except.toBool]
    · intro rest hc _
      exact absurd hc hd

/-- C3 witness: concrete run of the success branch on
`"  https://open.spotify.com/track/123?si=abc"`. -/
theorem claim_C3_witness :
    hasSub (str "open.spotify.com")
      (cutQuery (strip (str "  https://open.spotify.com/track/123?si=abc"))) =
      true ∧
    afterFirst (str "/track/")
      (cutQuery (strip (str "  https://open.spotify.com/track/123?si=abc"))) =
      some (str "123") ∧
    normalize_uri (str "  https://open.spotify.com/track/123?si=abc") =
      .ok (str "spotify:track:" ++
        (str "123").takeWhile (fun c => !(c = '/'))) :=
  ⟨by decide, by decide,
    (claim_C3 (str "  https://open.spotify.com/track/123?si=abc")).2
      (str "123") (by decide) (by decide)⟩

/-- C10: when the whitespace-stripped, `?`-truncated input does not
contain the web-URL domain pattern, `normalize_uri` returns that
processed string unchanged and never fails — no canonical-form check is
performed on it. -/
theorem claim_C10 (raw : List Char)
    (h : hasSub (str "open.spotify.com") (cutQuery (strip raw)) = false) :
    normalize_uri raw = .ok (cutQuery (strip raw)) := by
  simp [normalize_uri, h]

/-- C10 witness: arbitrary non-URL text is passed through as a track
identifier. -/
theorem claim_C10_witness :
    hasSub (str "open.spotify.com")
      (cutQuery (strip (str "not a spotify uri at all"))) = false ∧
    normalize_uri (str "not a spotify uri at all") =
      .ok (cutQuery (strip (str "not a spotify uri at all"))) :=
  ⟨by decide, claim_C10 (str "not a spotify uri at all") (by decide)⟩

/-- C1: `sync_playlist_once` appends exactly the elements of `desired`
not present in `existing` (multiplicity included), in `desired`'s
relative order (the appended sequence is a sublist of `desired`), and the
resulting playlist is `existing` followed by those appended elements —
existing items are never reordered or removed. -/
theorem claim_C1 (existing desired : List (List Char)) :
    (sync_playlist_once existing desired).finalPlaylist =
      existing ++ (sync_playlist_once existing desired).batches.flatten ∧
    List.Sublist ((sync_playlist_once existing desired).batches.flatten)
      desired ∧
    (∀ u, u ∈ existing →
      u ∉ (sync_playlist_once existing desired).batches.flatten) ∧
    (∀ u, u ∉ existing →
      ((sync_playlist_once existing desired).batches.flatten).count u =
        desired.count u) := by
  rw [sync_batches_flatten, sync_finalPlaylist]
  refine ⟨rfl, ?_, ?_, ?_⟩
  · simp only [to_add]
    exact List.filter_sublist desired
  · intro u hu hmem
    simp only [to_add, List.mem_filter, List.contains, List.elem_eq_mem,
      hu] at hmem
    simp at hmem
  · intro u hu
    simp only [to_add]
    apply List.count_filter
    simp [List.contains, List.elem_eq_mem, hu]

/-- C1 witness: with one track already present, the count of a missing
track in the appended batches equals its count in the desired list. -/
theorem claim_C1_witness :
    ((sync_playlist_once [str "spotify:track:1"]
        [str "spotify:track:1", str "spotify:track:2"]).batches.flatten).count
        (str "spotify:track:2") =
      ([str "spotify:track:1", str "spotify:track:2"]).count
        (str "spotify:track:2") :=
  (claim_C1 [str "spotify:track:1"]
      [str "spotify:track:1", str "spotify:track:2"]).2.2.2
    (str "spotify:track:2") (by decide)

/-- C2 counterexample: with duplicate-free remote contents `[]` and a
desired list in which `spotify:track:1` occurs twice (as
`parse_sheet_rows`'s ordered list permits), the playlist after
`sync_playlist_once` holds that identifier twice — the claim's
"at most once" fails. -/
theorem claim_C2_counterexample :
    ([] : List (List Char)).Nodup ∧
    ((sync_playlist_once []
        [str "spotify:track:1", str "spotify:track:1"]).finalPlaylist).count
        (str "spotify:track:1") = 2 := by
  refine ⟨List.nodup_nil, ?_⟩
  rw [sync_finalPlaylist]
  decide

/-- C2 (amended): when the desired list itself carries no duplicate
identifier and the remote contents carry none, `sync_playlist_once`
leaves a playlist in which each identifier occurs at most once. -/
theorem claim_C2_amended (existing desired : List (List Char))
    (he : existing.Nodup) (hd : desired.Nodup) :
    ((sync_playlist_once existing desired).finalPlaylist).Nodup := by
  rw [sync_finalPlaylist]
  refine List.nodup_append.mpr ⟨he, ?_, ?_⟩
  · simp only [to_add]
    exact hd.filter _
  · intro a ha hamem
    simp only [to_add, List.mem_filter, List.contains, List.elem_eq_mem,
      ha] at hamem
    simp at hamem

/-- C2 amended witness: a concrete duplicate-free run stays
duplicate-free. -/
theorem claim_C2_amended_witness :
    ((sync_playlist_once [str "spotify:track:1"]
        [str "spotify:track:2", str "spotify:track:1"]).finalPlaylist).Nodup :=
  claim_C2_amended [str "spotify:track:1"]
    [str "spotify:track:2", str "spotify:track:1"] (by decide) (by decide)

/-- C5: running `sync_playlist_once` again on the playlist produced by a
first run (with the same desired list) computes an empty `to_add`,
issues no append call and reports up-to-date, leaving the playlist
unchanged; and when every desired identifier is already present a single
run appends nothing. -/
theorem claim_C5 (existing desired : List (List Char)) :
    (sync_playlist_once (sync_playlist_once existing desired).finalPlaylist
        desired).batches = [] ∧
    (sync_playlist_once (sync_playlist_once existing desired).finalPlaylist
        desired).upToDate = true ∧
    (sync_playlist_once (sync_playlist_once existing desired).finalPlaylist
        desired).finalPlaylist =
      (sync_playlist_once existing desired).finalPlaylist ∧
    ((∀ u ∈ desired, u ∈ existing) →
      (sync_playlist_once existing desired).batches = [] ∧
      (sync_playlist_once existing desired).upToDate = true) := by
  have h2 : to_add (existing ++ to_add existing desired) desired = [] := by
    simp only [to_add, List.filter_eq_nil_iff]
    intro u hu
    by_cases he : u ∈ existing
    · simp [List.contains, List.elem_eq_mem, List.mem_append, he]
    · have hta : u ∈ desired.filter
          (fun uri => !(existing.contains uri)) := by
        simp [List.mem_filter, hu, List.contains, List.elem_eq_mem, he]
      simp only [List.mem_filter, List.contains, List.elem_eq_mem] at hta
      simp [List.contains, List.elem_eq_mem, List.mem_append]
      intro _
      exact ⟨hu, by simpa using hta.2⟩
  rw [sync_finalPlaylist]
  refine ⟨(sync_batches_eq_nil_iff _ _).mpr h2,
    (sync_upToDate_iff _ _).mpr h2, ?_, ?_⟩
  · rw [sync_finalPlaylist, h2, List.append_nil]
  · intro hsub
    have h0 : to_add existing desired = [] := by
      simp only [to_add, List.filter_eq_nil_iff]
      intro u hu
      simp [List.contains, List.elem_eq_mem, hsub u hu]
    exact ⟨(sync_batches_eq_nil_iff _ _).mpr h0,
      (sync_upToDate_iff _ _).mpr h0⟩

/-- C5 witness: when the desired list is a subset of the remote contents
a single run issues no append call and reports up-to-date. -/
theorem claim_C5_witness :
    (sync_playlist_once [str "spotify:track:1"]
        [str "spotify:track:1"]).batches = [] ∧
    (sync_playlist_once [str "spotify:track:1"]
        [str "spotify:track:1"]).upToDate = true :=
  (claim_C5 [str "spotify:track:1"] [str "spotify:track:1"]).2.2.2
    (by decide)

/-- C8: when something is missing, the append calls are issued in
consecutive non-empty batches of at most 100 items each, and the batches
concatenated in call order are exactly the missing-URI list. -/
theorem claim_C8 (existing desired : List (List Char))
    (h : to_add existing desired ≠ []) :
    (∀ b ∈ (sync_playlist_once existing desired).batches,
        b ≠ [] ∧ b.length ≤ 100) ∧
    (sync_playlist_once existing desired).batches.flatten =
      to_add existing desired := by
  have hb : (sync_playlist_once existing desired).batches =
      chunks 100 (to_add existing desired) := by
    simp [sync_playlist_once, h]
  refine ⟨?_, sync_batches_flatten _ _⟩
  rw [hb, chunks]
  intro b hbmem
  have hc := chunksAux_mem (100 - 1) (to_add existing desired) b hbmem
  exact ⟨hc.1, by omega⟩

/-- C8 witness: a concrete run with one missing track issues batches
that concatenate to the missing list. -/
theorem claim_C8_witness :
    to_add [] [str "spotify:track:1"] ≠ [] ∧
    (sync_playlist_once [] [str "spotify:track:1"]).batches.flatten =
      to_add [] [str "spotify:track:1"] :=
  ⟨by decide, (claim_C8 [] [str "spotify:track:1"] (by decide)).2⟩

/-- C6: on the spec's concrete rows, `parse_sheet_rows` returns the
stated mapping (in insertion order) and the stated ordered identifier
list; and every row whose trimmed contributor-name cell is blank yields
an entry whose contributor is `Anonymous`. -/
theorem claim_C6 :
    parse_sheet_rows
        [[str "name", str "spotify_link"],
         [str "Alice", str "https://open.spotify.com/track/123?si=abc"],
         [str "Bob", str "spotify:track:456"],
         [str "", str "spotify:track:789"]]
        (str "name") (str "spotify_link") =
      .ok ([(str "spotify:track:123", str "Alice"),
            (str "spotify:track:456", str "Bob"),
            (str "spotify:track:789", str "Anonymous")],
           [str "spotify:track:123", str "spotify:track:456",
            str "spotify:track:789"]) ∧
    (∀ name_idx link_idx row uri contributor,
      strip (row.getD name_idx []) = [] →
      parse_row name_idx link_idx row = some (uri, contributor) →
      contributor = str "Anonymous") := by
  refine ⟨rfl, ?_⟩
  intro ni li row uri contributor hblank hsome
  simp only [parse_row, hblank] at hsome
  split at hsome
  · exact absurd hsome (by simp)
  · split at hsome
    · exact absurd hsome (by simp)
    · split at hsome
      · exact absurd hsome (by simp)
      · simp at hsome
        exact hsome.2.symm

/-- C6 witness: the blank-name row of the concrete input produces the
`Anonymous` entry. -/
theorem claim_C6_witness :
    parse_row 0 1 [str "", str "spotify:track:789"] =
      some (str "spotify:track:789", str "Anonymous") ∧
    str "Anonymous" = str "Anonymous" :=
  ⟨by decide,
    claim_C6.2 0 1 [str "", str "spotify:track:789"]
      (str "spotify:track:789") (str "Anonymous") (by decide) (by decide)⟩

/-- C7: with a header row present, `parse_sheet_rows` fails exactly when
the contributor-name or track-link column is absent from the (trimmed)
header; and a data row that `parse_row` rejects — too short, blank link,
or failing normalization — is simply skipped: removing it leaves the
result unchanged, so no such row makes the load fail. -/
theorem claim_C7 (header : List (List Char))
    (body : List (List (List Char))) (name_col link_col : List Char) :
    ((∃ e, parse_sheet_rows (header :: body) name_col link_col =
        .error e) ↔
      (name_col ∉ header.map strip ∨ link_col ∉ header.map strip)) ∧
    (∀ name_idx link_idx pre post row,
      (header.map strip).findIdx? (fun x => x = name_col) =
        some name_idx →
      (header.map strip).findIdx? (fun x => x = link_col) =
        some link_idx →
      parse_row name_idx link_idx row = none →
      parse_sheet_rows (header :: (pre ++ row :: post)) name_col link_col =
        parse_sheet_rows (header :: (pre ++ post)) name_col link_col) := by
  constructor
  · cases hn : (header.map strip).findIdx? (fun x => x = name_col) with
    | none =>
        have : name_col ∉ header.map strip := by
          intro hmem
          have := List.findIdx?_eq_none_iff.mp hn name_col hmem
          simp at this
        simp only [parse_sheet_rows, hn]
        simp [this]
    | some ni =>
        cases hl : (header.map strip).findIdx? (fun x => x = link_col) with
        | none =>
            have : link_col ∉ header.map strip := by
              intro hmem
              have := List.findIdx?_eq_none_iff.mp hl link_col hmem
              simp at this
            simp only [parse_sheet_rows, hn, hl]
            simp [this]
        | some li =>
            have hnm : name_col ∈ header.map strip := by
              by_contra hmem
              rw [List.findIdx?_eq_none_iff.mpr
                (fun x hx => by
                  simp only [decide_eq_false_iff_not]
                  intro hxc; exact hmem (hxc ▸ hx))] at hn
              exact Option.noConfusion hn
            have hlm : link_col ∈ header.map strip := by
              by_contra hmem
              rw [List.findIdx?_eq_none_iff.mpr
                (fun x hx => by
                  simp only [decide_eq_false_iff_not]
                  intro hxc; exact hmem (hxc ▸ hx))] at hl
              exact Option.noConfusion hl
            simp only [parse_sheet_rows, hn, hl]
            simp [hnm, hlm]
  · intro ni li pre post row hn hl hrow
    simp only [parse_sheet_rows, hn, hl]
    rw [List.foldl_append, List.foldl_append, List.foldl_cons]
    have : parse_step ni li
        (List.foldl (parse_step ni li) ([], []) pre) row =
        List.foldl (parse_step ni li) ([], []) pre := by
      simp [parse_step, hrow]
    rw [this]

/-- C7 witness: a too-short data row is skipped without failing the
load. -/
theorem claim_C7_witness :
    parse_sheet_rows
        [[str "name", str "spotify_link"], [str "nolink"],
         [str "Bob", str "spotify:track:1"]]
        (str "name") (str "spotify_link") =
      parse_sheet_rows
        [[str "name", str "spotify_link"],
         [str "Bob", str "spotify:track:1"]]
        (str "name") (str "spotify_link") :=
  (claim_C7 [str "name", str "spotify_link"] [] (str "name")
      (str "spotify_link")).2 0 1 [] [[str "Bob", str "spotify:track:1"]]
    [str "nolink"] (by decide) (by decide) (by decide)

/-- C4 counterexample: on the header `["spotify_link","name"]` with the
single short data row `["spotify:track:1"]`, `parse_sheet_rows` skips the
row (it is shorter than the contributor column requires) and returns the
empty mapping, while `load_csv_mapping` fills the missing contributor
cell with `None` (hence `Anonymous`) and returns one entry — the two
loader variants are not equivalent on these rows. -/
theorem claim_C4_counterexample :
    parse_sheet_rows
        [[str "spotify_link", str "name"], [str "spotify:track:1"]]
        (str "name") (str "spotify_link") = .ok ([], []) ∧
    load_csv_mapping
        [[str "spotify_link", str "name"], [str "spotify:track:1"]]
        (str "name") (str "spotify_link") =
      ([(str "spotify:track:1", str "Anonymous")],
        [str "spotify:track:1"]) ∧
    (([], []) : List (List Char × List Char) × List (List Char)) ≠
      ([(str "spotify:track:1", str "Anonymous")],
        [str "spotify:track:1"]) :=
  ⟨rfl, rfl, by decide⟩

/-- C4 (amended): the two loader variants agree whenever the header
cells are already trimmed and duplicate-free, both configured column
names occur in the header, and every non-blank data row is long enough
to reach both columns. -/
theorem claim_C4_amended (header : List (List Char))
    (body : List (List (List Char))) (name_col link_col : List Char)
    (name_idx link_idx : Nat)
    (hstrip : header.map strip = header)
    (hnd : header.Nodup)
    (hn : header.findIdx? (fun x => x = name_col) = some name_idx)
    (hl : header.findIdx? (fun x => x = link_col) = some link_idx)
    (hrows : ∀ row ∈ body, row ≠ [] →
      name_idx < row.length ∧ link_idx < row.length) :
    parse_sheet_rows (header :: body) name_col link_col =
      .ok (load_csv_mapping (header :: body) name_col link_col) := by
  simp only [parse_sheet_rows, load_csv_mapping, hstrip, hn, hl]
  congr 1
  apply List.foldl_ext
  intro acc row hrow
  by_cases hempty : row = []
  · subst hempty
    simp [parse_step, parse_row, csv_step]
  · obtain ⟨hni, hli⟩ := hrows row hrow hempty
    have hgn : dictGetStr header row name_col = (row[name_idx]?).getD [] := by
      rw [dictGetStr, lastFindIdx?_eq_findIdx? hnd, hn]
      simp
    have hgl : dictGetStr header row link_col = (row[link_idx]?).getD [] := by
      rw [dictGetStr, lastFindIdx?_eq_findIdx? hnd, hl]
      simp
    have hmax : ¬(row.length ≤ max name_idx link_idx) :=
      Nat.not_le.mpr (Nat.max_lt.mpr ⟨hni, hli⟩)
    simp only [csv_step, if_neg hempty, hgn, hgl, parse_step, parse_row,
      if_neg hmax, List.getD_eq_getElem?_getD]
    by_cases hlink : strip ((row[link_idx]?).getD []) = []
    · simp [hlink]
    · simp only [if_neg hlink]
      cases hnorm : normalize_uri (strip ((row[link_idx]?).getD [])) with
      | error e => simp [hnorm]
      | ok uri => simp [hnorm]

/-- C4 amended witness: the two loaders agree on a well-formed header
and a full-length data row. -/
theorem claim_C4_amended_witness :
    parse_sheet_rows
        [[str "name", str "spotify_link"],
         [str "Alice", str "spotify:track:1"]]
        (str "name") (str "spotify_link") =
      .ok (load_csv_mapping
        [[str "name", str "spotify_link"],
         [str "Alice", str "spotify:track:1"]]
        (str "name") (str "spotify_link")) :=
  claim_C4_amended [str "name", str "spotify_link"]
    [[str "Alice", str "spotify:track:1"]] (str "name")
    (str "spotify_link") 0 1 (by decide) (by decide) (by decide)
    (by decide) (by decide)

/-- C9: the page handler renders the placeholder exactly when the
playback response is absent, reports not playing, or lacks a current
item; otherwise it renders the track name, the comma-joined artists, the
contributor from the mapping (falling back to `someone` when the track
identifier is not a key), the first album image URL when images are
present (otherwise none), and the avatar looked up by contributor
name. -/
theorem claim_C9 (current : Option Playback)
    (mapping contrib_imgs : List (List Char × List Char)) :
    (show_now_playing current mapping contrib_imgs = .placeholder ↔
      (∀ c, current = some c → c.is_playing = false ∨ c.item = none)) ∧
    (∀ c item, current = some c → c.is_playing = true →
      c.item = some item →
      show_now_playing current mapping contrib_imgs =
        .playing item.name (joinComma item.artists)
          ((lookup? mapping item.uri).getD (str "someone"))
          (((albumImages item).head?).map Image.url)
          (lookup? contrib_imgs
            ((lookup? mapping item.uri).getD (str "someone")))) := by
  constructor
  · cases current with
    | none => simp [show_now_playing]
    | some c =>
        cases hp : c.is_playing with
        | false => simp [show_now_playing, hp]
        | true =>
            cases hi : c.item with
            | none => simp [show_now_playing, hp, hi]
            | some item => simp [show_now_playing, hp, hi]
  · intro c item hc hp hi
    subst hc
    simp only [show_now_playing, hp, hi, if_true]
    rw [lookupD_eq_lookup?]
    cases him : albumImages item with
    | nil => simp [him]
    | cons im rest => simp [him]

/-- C9 witness: a playing response with one artist, a cover image and a
known contributor renders the populated template. -/
theorem claim_C9_witness :
    show_now_playing
        (some ⟨true, some ⟨str "spotify:track:111", str "Song",
          [str "Art"], some ⟨some [⟨str "cover.jpg"⟩]⟩⟩⟩)
        [(str "spotify:track:111", str "Alice")]
        [(str "Alice", str "a.png")] =
      .playing (str "Song") (joinComma [str "Art"])
        ((lookup? [(str "spotify:track:111", str "Alice")]
            (str "spotify:track:111")).getD (str "someone"))
        (((albumImages ⟨str "spotify:track:111", str "Song", [str "Art"],
            some ⟨some [⟨str "cover.jpg"⟩]⟩⟩).head?).map Image.url)
        (lookup? [(str "Alice", str "a.png")]
          ((lookup? [(str "spotify:track:111", str "Alice")]
              (str "spotify:track:111")).getD (str "someone"))) :=
  (claim_C9
      (some ⟨true, some ⟨str "spotify:track:111", str "Song",
        [str "Art"], some ⟨some [⟨str "cover.jpg"⟩]⟩⟩⟩)
      [(str "spotify:track:111", str "Alice")]
      [(str "Alice", str "a.png")]).2
    ⟨true, some ⟨str "spotify:track:111", str "Song", [str "Art"],
      some ⟨some [⟨str "cover.jpg"⟩]⟩⟩⟩
    ⟨str "spotify:track:111", str "Song", [str "Art"],
      some ⟨some [⟨str "cover.jpg"⟩]⟩⟩
    rfl rfl rfl

end SheetToSpotify
